import Mathlib

/-!
Shallow embedding of `src/util/excel.py` (functions `extract_cells_by_column_range`
and `extract_cells_by_column_letters`) together with proofs of the specification
claims about them.

Modelling conventions:
* A spreadsheet cell value is `Option Value`; `none` is Python's `None`
  (an absent/empty cell), `some v` any other value (text, number, boolean, date).
* Row and column indices are natural numbers (the code only ever produces
  1-indexed positive indices; Python's `range(a, b)` over naturals is
  `List.range' a (b - a)`, which is empty when `b ≤ a`, exactly like Python).
* The workbook-loading collaborator (`openpyxl.load_workbook`) is a parameter
  `load : String → Except LoadFailure Workbook`; `LoadFailure.fileNotFound`
  models `FileNotFoundError` (the only exception the source catches) and
  `LoadFailure.other` any other exception raised while opening the file
  (e.g. an existing file that is not a valid workbook), which the source
  lets propagate.
* A Python `dict` keyed by strings is an association list without duplicate
  keys; assignment `d[k] = v` is `dictInsert` (update in place when the key
  exists, append otherwise), matching CPython semantics.
* `openpyxl.utils.get_column_letter` and `column_index_from_string` are
  external collaborators, embedded as the standard bijective base-26
  column-naming functions they implement (spec §4.2: base-26, letters A-Z,
  case-insensitive, no zero column).
* `workbook.close()` has no observable effect in a value-level model.
-/

/-- Cell payloads: a closed variant of the scalar values a spreadsheet cell can
hold.  A cell is `Option Value`, with `none` for Python's `None`. -/
inductive Value where
  | text (s : String)
  | num (n : Int)
  | boolean (b : Bool)
  | date (d : Nat)
deriving DecidableEq, Repr

/-- A worksheet: cell lookup by (row, column), both 1-indexed, plus the
`max_row` bound used when `end_row` is omitted. -/
structure Sheet where
  cell : Nat → Nat → Option Value
  max_row : Nat

/-- A workbook: the list of sheet names (`workbook.sheetnames`) and sheet
lookup by name (`workbook[sheet_name]`). -/
structure Workbook where
  sheetnames : List String
  sheet : String → Sheet

/-- Outcomes of `load_workbook(file_path)`: success, `FileNotFoundError`, or
any other exception (whose message we carry). -/
inductive LoadFailure where
  | fileNotFound (msg : String)
  | other (msg : String)
deriving DecidableEq, Repr

/-- Errors observable from the two extraction functions: `FileNotFoundError`,
`ValueError`, or an exception of another class that propagated uncaught. -/
inductive ExcelError where
  | fileNotFound (msg : String)
  | valueError (msg : String)
  | uncaught (msg : String)
deriving DecidableEq, Repr

/-- Letters of `get_column_letter n` (bijective base 26), least-significant
last, computed with explicit fuel so the kernel can evaluate it; `fuel ≥ n`
suffices because the recursive argument `m / 26` is at most `m`. -/
def colLettersAux : Nat → Nat → List Char
  | _, 0 => []
  | 0, _ + 1 => []
  | fuel + 1, m + 1 => colLettersAux fuel (m / 26) ++ [Char.ofNat (65 + m % 26)]

/-- Embedding of `openpyxl.utils.get_column_letter`: 1 ↦ "A", 26 ↦ "Z",
27 ↦ "AA", … . -/
def get_column_letter (n : Nat) : String :=
  ⟨colLettersAux n n⟩

/-- Decimal digits of `n + 1` … fuelled as in `colLettersAux`. -/
def digitsAux : Nat → Nat → List Char
  | _, 0 => []
  | 0, _ + 1 => []
  | fuel + 1, m + 1 => digitsAux fuel ((m + 1) / 10) ++ [Char.ofNat (48 + (m + 1) % 10)]

/-- Decimal rendering of a natural number, as Python's `str(row_idx)`. -/
def natToString (n : Nat) : String :=
  if n = 0 then "0" else ⟨digitsAux n n⟩

/-- The cell address string `f"{get_column_letter(col_idx)}{row_idx}"`. -/
def cell_address (col_idx row_idx : Nat) : String :=
  get_column_letter col_idx ++ natToString row_idx

/-- Keys of an association list modelling a Python dict. -/
def dictKeys (m : List (String × Nat × Nat)) : List String :=
  m.map Prod.fst

/-- Python dict assignment `d[k] = v`: overwrite in place when the key is
present, append otherwise. -/
def dictInsert (m : List (String × Nat × Nat)) (k : String) (v : Nat × Nat) :
    List (String × Nat × Nat) :=
  if (dictKeys m).contains k then
    m.map (fun p => if p.1 = k then (p.1, v) else p)
  else
    m ++ [(k, v)]

/-- Inner column loop of `extract_cells_by_column_range`: over the remaining
column indices, extend `(row_data, cell_mapping, row_has_data)` exactly as the
Python loop body does. -/
def scanCols (ws : Sheet) (start_column row_idx data_row_index : Nat) :
    List Nat → List (Option Value) × List (String × Nat × Nat) × Bool →
    List (Option Value) × List (String × Nat × Nat) × Bool
  | [], acc => acc
  | col_idx :: rest, (row_data, cell_mapping, row_has_data) =>
      let cell_value := ws.cell row_idx col_idx
      scanCols ws start_column row_idx data_row_index rest
        (row_data ++ [cell_value],
         dictInsert cell_mapping (cell_address col_idx row_idx)
           (data_row_index, col_idx - start_column),
         row_has_data || cell_value.isSome)

/-- Outer row loop of `extract_cells_by_column_range`: scan each remaining row,
then keep the row buffer when it has data or `include_empty` is set, and only
then advance `data_row_index`. -/
def scanRows (ws : Sheet) (start_column end_column : Nat) (include_empty : Bool) :
    List Nat → Nat → List (List (Option Value)) → List (String × Nat × Nat) →
    List (List (Option Value)) × List (String × Nat × Nat)
  | [], _, extracted_data, cell_mapping => (extracted_data, cell_mapping)
  | row_idx :: rest, data_row_index, extracted_data, cell_mapping =>
      let res := scanCols ws start_column row_idx data_row_index
        (List.range' start_column (end_column + 1 - start_column))
        ([], cell_mapping, false)
      if res.2.2 || include_empty then
        scanRows ws start_column end_column include_empty rest (data_row_index + 1)
          (extracted_data ++ [res.1]) res.2.1
      else
        scanRows ws start_column end_column include_empty rest data_row_index
          extracted_data res.2.1

/-- Python's rendering of a list of strings, as interpolated into the
missing-sheet error message (each name in single quotes, comma-separated,
in square brackets). -/
def pyReprStrList (xs : List String) : String :=
  "[" ++ String.intercalate ", " (xs.map (fun s => "\x27" ++ s ++ "\x27")) ++ "]"

/-- Embedding of `extract_cells_by_column_range` from `src/util/excel.py`.
Arguments are positional; the Python defaults are `start_row = 1`,
`end_row = none`, `include_empty = false`. -/
def extract_cells_by_column_range
    (load : String → Except LoadFailure Workbook)
    (file_path sheet_name : String)
    (start_column end_column start_row : Nat)
    (end_row : Option Nat) (include_empty : Bool) :
    Except ExcelError (List (List (Option Value)) × List (String × Nat × Nat)) :=
  match load file_path with
  | .error (.fileNotFound _) =>
      .error (.fileNotFound ("Excel file not found: " ++ file_path))
  | .error (.other e) => .error (.uncaught e)
  | .ok workbook =>
      if ¬ workbook.sheetnames.contains sheet_name then
        .error (.valueError ("Sheet \x27" ++ sheet_name ++ "\x27 not found. Available sheets: "
          ++ pyReprStrList workbook.sheetnames))
      else
        let worksheet := workbook.sheet sheet_name
        if start_column < 1 ∨ end_column < start_column then
          .error (.valueError ("Invalid column range: start_column=" ++ natToString start_column
            ++ ", end_column=" ++ natToString end_column))
        else
          let er := end_row.getD worksheet.max_row
          .ok (scanRows worksheet start_column end_column include_empty
            (List.range' start_row (er + 1 - start_row)) 0 [] [])

/-- Uppercase A-Z test on a character. -/
def isUpperAlpha (c : Char) : Bool :=
  65 ≤ c.toNat && c.toNat ≤ 90

/-- Uppercasing of an ASCII letter (identity elsewhere). -/
def upChar (c : Char) : Char :=
  if 97 ≤ c.toNat && c.toNat ≤ 122 then Char.ofNat (c.toNat - 32) else c

/-- Value of a list of column letters in bijective base 26 (A=1 … Z=26). -/
def lettersToNum (cs : List Char) : Nat :=
  cs.foldl (fun a c => a * 26 + (c.toNat - 64)) 0

/-- Embedding of the external collaborator
`openpyxl.utils.column_index_from_string`, per spec §4.2: base-26 letters A-Z,
case-insensitive, no zero column; any other string fails with the library's
`ValueError` message. -/
def column_index_from_string (s : String) : Except String Nat :=
  let cs := s.data.map upChar
  if cs.length ≠ 0 ∧ cs.all isUpperAlpha then .ok (lettersToNum cs)
  else .error (s ++ " is not a valid column name")

/-- Embedding of `extract_cells_by_column_letters` from `src/util/excel.py`:
convert both letters (wrapping a conversion `ValueError` with context), then
delegate to `extract_cells_by_column_range`. -/
def extract_cells_by_column_letters
    (load : String → Except LoadFailure Workbook)
    (file_path sheet_name : String)
    (start_column end_column : String)
    (start_row : Nat) (end_row : Option Nat) (include_empty : Bool) :
    Except ExcelError (List (List (Option Value)) × List (String × Nat × Nat)) :=
  match column_index_from_string start_column with
  | .error e => .error (.valueError ("Invalid column letters: " ++ e))
  | .ok start_col_num =>
    match column_index_from_string end_column with
    | .error e => .error (.valueError ("Invalid column letters: " ++ e))
    | .ok end_col_num =>
        extract_cells_by_column_range load file_path sheet_name
          start_col_num end_col_num start_row end_row include_empty

/-- The column indices scanned by the inner loop:
`range(start_column, end_column + 1)`. -/
def scannedCols (start_column end_column : Nat) : List Nat :=
  List.range' start_column (end_column + 1 - start_column)

/-- The row indices scanned by the outer loop, for effective end row `er`:
`range(start_row, er + 1)`. -/
def scannedRows (start_row er : Nat) : List Nat :=
  List.range' start_row (er + 1 - start_row)

/-- The values of one scanned row, in ascending column order. -/
def rowVals (ws : Sheet) (start_column end_column r : Nat) : List (Option Value) :=
  (scannedCols start_column end_column).map (fun c => ws.cell r c)

/-- Whether a scanned row holds any non-absent cell in the requested columns. -/
def rowHasData (ws : Sheet) (start_column end_column r : Nat) : Bool :=
  (scannedCols start_column end_column).any (fun c => (ws.cell r c).isSome)

/-- The scanned rows that the loop keeps (data present, or `include_empty`). -/
def keptRows (ws : Sheet) (start_column end_column start_row er : Nat)
    (include_empty : Bool) : List Nat :=
  (scannedRows start_row er).filter
    (fun r => rowHasData ws start_column end_column r || include_empty)

/-- Number of kept rows strictly before row `r` in the scan: the value of the
running `data_row_index` counter at the moment row `r` is scanned. -/
def keptBefore (ws : Sheet) (start_column end_column start_row : Nat)
    (include_empty : Bool) (r : Nat) : Nat :=
  ((List.range' start_row (r - start_row)).filter
    (fun x => rowHasData ws start_column end_column x || include_empty)).length

/-- The address-map entries contributed by the given rows when the counter
starts at `idx`: per row, one entry per scanned column, then the rest with the
counter advanced when the row is kept. -/
def mapPairs (ws : Sheet) (start_column end_column : Nat) (include_empty : Bool) :
    List Nat → Nat → List (String × Nat × Nat)
  | [], _ => []
  | r :: rest, idx =>
      (scannedCols start_column end_column).map
        (fun c => (cell_address c r, (idx, c - start_column)))
        ++ mapPairs ws start_column end_column include_empty rest
          (if rowHasData ws start_column end_column r || include_empty then idx + 1 else idx)

/-- Value of a list of decimal digit characters. -/
def digitsVal (cs : List Char) : Nat :=
  cs.foldl (fun a c => a * 10 + (c.toNat - 48)) 0

/-- Whether an extraction result is a `FileNotFound` failure. -/
def isFileNotFoundResult
    (r : Except ExcelError (List (List (Option Value)) × List (String × Nat × Nat))) : Bool :=
  match r with
  | .error (.fileNotFound _) => true
  | _ => false

/-- Concrete worksheet fixture (the spec §8 scenario): rows 1–3, columns A–B
hold `[["H1","H2"],[1,2],[None,None]]`. -/
def sheetA : Sheet where
  cell := fun r c =>
    if r = 1 ∧ c = 1 then some (.text "H1")
    else if r = 1 ∧ c = 2 then some (.text "H2")
    else if r = 2 ∧ c = 1 then some (.num 1)
    else if r = 2 ∧ c = 2 then some (.num 2)
    else none
  max_row := 3

/-- Concrete workbook fixture holding `sheetA` under the name "Sheet1". -/
def wbA : Workbook where
  sheetnames := ["Sheet1"]
  sheet := fun _ => sheetA

/-- A loader on which every path opens `wbA`. -/
def loadA : String → Except LoadFailure Workbook := fun _ => .ok wbA

/-- Worksheet fixture whose only non-absent cell holds the empty text string
(data for the empty-row filter, although the string itself is empty). -/
def sheetB : Sheet where
  cell := fun r c => if r = 1 ∧ c = 1 then some (.text "") else none
  max_row := 2

/-- Workbook fixture holding `sheetB` under the name "Data". -/
def wbB : Workbook where
  sheetnames := ["Data"]
  sheet := fun _ => sheetB

/-- A loader on which every path opens `wbB`. -/
def loadB : String → Except LoadFailure Workbook := fun _ => .ok wbB

/-- A loader for which the file exists but cannot be opened as a workbook:
`load_workbook` raises an exception other than `FileNotFoundError`. -/
def corruptLoad : String → Except LoadFailure Workbook :=
  fun _ => .error (.other "File is not a zip file")

/-- A loader for which the path names no file: `load_workbook` raises
`FileNotFoundError`. -/
def missingLoad : String → Except LoadFailure Workbook :=
  fun _ => .error (.fileNotFound "No such file or directory")

theorem char_toNat_ofNat (n : Nat) (h : n < 55296) : (Char.ofNat n).toNat = n := by
  have hv : n.isValidChar := Or.inl h
  simp [Char.ofNat, hv, Char.ofNatAux, Char.toNat, UInt32.toNat, BitVec.toNat_ofNatLt]

theorem lettersToNum_append_singleton (cs : List Char) (c : Char) :
    lettersToNum (cs ++ [c]) = lettersToNum cs * 26 + (c.toNat - 64) := by
  simp [lettersToNum, List.foldl_append]

theorem lettersToNum_colLettersAux :
    ∀ fuel n, n ≤ fuel → lettersToNum (colLettersAux fuel n) = n := by
  intro fuel
  induction fuel with
  | zero =>
      intro n hn
      interval_cases n
      simp [colLettersAux, lettersToNum]
  | succ fuel ih =>
      intro n hn
      match n with
      | 0 => simp [colLettersAux, lettersToNum]
      | m + 1 =>
          rw [colLettersAux, lettersToNum_append_singleton,
            ih (m / 26) (Nat.le_trans (Nat.div_le_self m 26) (by omega)),
            char_toNat_ofNat (65 + m % 26)
              (by have h2 : m % 26 < 26 := Nat.mod_lt m (by omega); omega)]
          have h1 := Nat.div_add_mod m 26
          have h2 : m % 26 < 26 := Nat.mod_lt m (by omega)
          omega

theorem colLettersAux_mem_alpha :
    ∀ fuel n c, c ∈ colLettersAux fuel n → 65 ≤ c.toNat ∧ c.toNat ≤ 90 := by
  intro fuel
  induction fuel with
  | zero =>
      intro n c hc
      match n with
      | 0 => simp [colLettersAux] at hc
      | m + 1 => simp [colLettersAux] at hc
  | succ fuel ih =>
      intro n c hc
      match n with
      | 0 => simp [colLettersAux] at hc
      | m + 1 =>
          rw [colLettersAux] at hc
          rcases List.mem_append.1 hc with h | h
          · exact ih _ _ h
          · have hm : m % 26 < 26 := Nat.mod_lt m (by omega)
            have : c = Char.ofNat (65 + m % 26) := by simpa using h
            subst this
            rw [char_toNat_ofNat (65 + m % 26) (by omega)]
            omega

theorem colLettersAux_ne_nil (fuel n : Nat) (hn1 : 1 ≤ n) (hn2 : n ≤ fuel) :
    colLettersAux fuel n ≠ [] := by
  match fuel, n with
  | 0, n => omega
  | fuel + 1, 0 => omega
  | fuel + 1, m + 1 => simp [colLettersAux]

theorem digitsVal_append_singleton (cs : List Char) (c : Char) :
    digitsVal (cs ++ [c]) = digitsVal cs * 10 + (c.toNat - 48) := by
  simp [digitsVal, List.foldl_append]

theorem digitsVal_digitsAux :
    ∀ fuel n, n ≤ fuel → digitsVal (digitsAux fuel n) = n := by
  intro fuel
  induction fuel with
  | zero =>
      intro n hn
      interval_cases n
      simp [digitsAux, digitsVal]
  | succ fuel ih =>
      intro n hn
      match n with
      | 0 => simp [digitsAux, digitsVal]
      | m + 1 =>
          have hlt : (m + 1) / 10 < m + 1 := Nat.div_lt_self (by omega) (by omega)
          rw [digitsAux, digitsVal_append_singleton,
            ih ((m + 1) / 10) (by omega),
            char_toNat_ofNat (48 + (m + 1) % 10)
              (by have h2 : (m + 1) % 10 < 10 := Nat.mod_lt (m + 1) (by omega); omega)]
          have h1 := Nat.div_add_mod (m + 1) 10
          have h2 : (m + 1) % 10 < 10 := Nat.mod_lt (m + 1) (by omega)
          omega

theorem digitsAux_mem_digit :
    ∀ fuel n c, c ∈ digitsAux fuel n → 48 ≤ c.toNat ∧ c.toNat ≤ 57 := by
  intro fuel
  induction fuel with
  | zero =>
      intro n c hc
      match n with
      | 0 => simp [digitsAux] at hc
      | m + 1 => simp [digitsAux] at hc
  | succ fuel ih =>
      intro n c hc
      match n with
      | 0 => simp [digitsAux] at hc
      | m + 1 =>
          rw [digitsAux] at hc
          rcases List.mem_append.1 hc with h | h
          · exact ih _ _ h
          · have hm : (m + 1) % 10 < 10 := Nat.mod_lt (m + 1) (by omega)
            have : c = Char.ofNat (48 + (m + 1) % 10) := by simpa using h
            subst this
            rw [char_toNat_ofNat (48 + (m + 1) % 10) (by omega)]
            omega

theorem digitsVal_natToString (n : Nat) : digitsVal (natToString n).data = n := by
  by_cases h : n = 0
  · subst h
    simp [natToString, digitsVal]
  · simp only [natToString, h, if_false]
    exact digitsVal_digitsAux n n (Nat.le_refl n)

theorem natToString_inj {a b : Nat} (h : natToString a = natToString b) : a = b := by
  have := congrArg (fun s => digitsVal s.data) h
  simpa [digitsVal_natToString] using this

theorem natToString_mem_digit (n : Nat) :
    ∀ c ∈ (natToString n).data, 48 ≤ c.toNat ∧ c.toNat ≤ 57 := by
  intro c hc
  by_cases h : n = 0
  · subst h
    simp [natToString] at hc
    subst hc
    decide
  · simp only [natToString, h, if_false] at hc
    exact digitsAux_mem_digit n n c hc

theorem alpha_digit_append_inj :
    ∀ (a1 : List Char) (a2 d1 d2 : List Char),
      (∀ c ∈ a1, 65 ≤ c.toNat ∧ c.toNat ≤ 90) →
      (∀ c ∈ a2, 65 ≤ c.toNat ∧ c.toNat ≤ 90) →
      (∀ c ∈ d1, 48 ≤ c.toNat ∧ c.toNat ≤ 57) →
      (∀ c ∈ d2, 48 ≤ c.toNat ∧ c.toNat ≤ 57) →
      a1 ++ d1 = a2 ++ d2 → a1 = a2 ∧ d1 = d2 := by
  intro a1
  induction a1 with
  | nil =>
      intro a2 d1 d2 _ ha2 hd1 _ h
      match a2 with
      | [] => exact ⟨rfl, h⟩
      | x :: a2t =>
          exfalso
          have hx : x ∈ ([] : List Char) ++ d1 := by rw [h]; simp
          simp at hx
          have h1 := hd1 x hx
          have h2 := ha2 x (by simp)
          omega
  | cons x t ih =>
      intro a2 d1 d2 ha1 ha2 hd1 hd2 h
      match a2 with
      | [] =>
          exfalso
          have hx : x ∈ d2 := by
            have : x ∈ ([] : List Char) ++ d2 := by rw [← h]; simp
            simpa using this
          have h1 := hd2 x hx
          have h2 := ha1 x (by simp)
          omega
      | y :: a2t =>
          simp only [List.cons_append, List.cons.injEq] at h
          obtain ⟨hxy, htail⟩ := h
          have := ih a2t d1 d2 (fun c hc => ha1 c (by simp [hc]))
            (fun c hc => ha2 c (by simp [hc])) hd1 hd2 htail
          exact ⟨by rw [hxy, this.1], this.2⟩

theorem cell_address_inj {c1 r1 c2 r2 : Nat}
    (h : cell_address c1 r1 = cell_address c2 r2) : c1 = c2 ∧ r1 = r2 := by
  have hd := congrArg String.data h
  simp only [cell_address, String.data_append, get_column_letter] at hd
  have := alpha_digit_append_inj (colLettersAux c1 c1) (colLettersAux c2 c2)
    (natToString r1).data (natToString r2).data
    (fun c hc => colLettersAux_mem_alpha c1 c1 c hc)
    (fun c hc => colLettersAux_mem_alpha c2 c2 c hc)
    (natToString_mem_digit r1) (natToString_mem_digit r2) hd
  constructor
  · have := congrArg lettersToNum this.1
    rwa [lettersToNum_colLettersAux c1 c1 (Nat.le_refl c1),
      lettersToNum_colLettersAux c2 c2 (Nat.le_refl c2)] at this
  · exact natToString_inj (String.ext this.2)

theorem dictInsert_fresh (m : List (String × Nat × Nat)) (k : String) (v : Nat × Nat)
    (h : k ∉ dictKeys m) : dictInsert m k v = m ++ [(k, v)] := by
  have hc : (dictKeys m).contains k = false := by simpa using h
  simp only [dictInsert, hc, Bool.false_eq_true, if_false]

theorem scanCols_eq (ws : Sheet) (sc r idx : Nat) :
    ∀ (cols : List Nat) (rd : List (Option Value)) (m : List (String × Nat × Nat)) (hd : Bool),
      (∀ c ∈ cols, cell_address c r ∉ dictKeys m) →
      (cols.map (fun c => cell_address c r)).Nodup →
      scanCols ws sc r idx cols (rd, m, hd) =
        (rd ++ cols.map (fun c => ws.cell r c),
         m ++ cols.map (fun c => (cell_address c r, (idx, c - sc))),
         hd || cols.any (fun c => (ws.cell r c).isSome)) := by
  intro cols
  induction cols with
  | nil => intro rd m hd _ _; simp [scanCols]
  | cons c0 rest ih =>
      intro rd m hd hfresh hnd
      rw [scanCols]
      rw [dictInsert_fresh m (cell_address c0 r) (idx, c0 - sc) (hfresh c0 (by simp))]
      have hnd' : (rest.map (fun c => cell_address c r)).Nodup :=
        (List.nodup_cons.1 (by simpa using hnd)).2
      have hc0 : cell_address c0 r ∉ rest.map (fun c => cell_address c r) :=
        (List.nodup_cons.1 (by simpa using hnd)).1
      rw [ih (rd ++ [ws.cell r c0]) (m ++ [(cell_address c0 r, (idx, c0 - sc))])
        (hd || (ws.cell r c0).isSome)
        (by
          intro c hc hmem
          simp only [dictKeys, List.map_append, List.map_cons, List.map_nil,
            List.mem_append, List.mem_singleton] at hmem
          rcases hmem with hmem | hmem
          · exact hfresh c (by simp [hc]) hmem
          · exact hc0 (by rw [← hmem]; exact List.mem_map_of_mem _ hc))
        hnd']
      simp [Bool.or_assoc]

theorem addrs_nodup (r : Nat) (cols : List Nat) (h : cols.Nodup) :
    (cols.map (fun c => cell_address c r)).Nodup :=
  h.map_on (fun _ _ _ _ hxy => (cell_address_inj hxy).1)

theorem scanRows_cons (ws : Sheet) (sc ec : Nat) (ie : Bool) (r0 : Nat) (rest : List Nat)
    (idx : Nat) (data : List (List (Option Value))) (m : List (String × Nat × Nat)) :
    scanRows ws sc ec ie (r0 :: rest) idx data m =
      (fun res =>
        if res.2.2 || ie then
          scanRows ws sc ec ie rest (idx + 1) (data ++ [res.1]) res.2.1
        else
          scanRows ws sc ec ie rest idx data res.2.1)
      (scanCols ws sc r0 idx (List.range' sc (ec + 1 - sc)) ([], m, false)) := rfl

theorem scanRows_eq (ws : Sheet) (sc ec : Nat) (ie : Bool) :
    ∀ (rows : List Nat) (idx : Nat) (data : List (List (Option Value)))
      (m : List (String × Nat × Nat)),
      rows.Nodup →
      (∀ r ∈ rows, ∀ c ∈ List.range' sc (ec + 1 - sc), cell_address c r ∉ dictKeys m) →
      scanRows ws sc ec ie rows idx data m =
        (data ++ (rows.filter (fun r => rowHasData ws sc ec r || ie)).map (rowVals ws sc ec),
         m ++ mapPairs ws sc ec ie rows idx) := by
  intro rows
  induction rows with
  | nil => intro idx data m _ _; simp [scanRows, mapPairs]
  | cons r0 rest ih =>
      intro idx data m hnd hfresh
      have hndr := List.nodup_cons.1 hnd
      have hcols : (List.range' sc (ec + 1 - sc)).Nodup := List.nodup_range' sc _ 1 (by omega)
      have hsc0 := scanCols_eq ws sc r0 idx (List.range' sc (ec + 1 - sc)) [] m false
        (fun c hc => hfresh r0 (by simp) c hc)
        (addrs_nodup r0 _ hcols)
      have hfresh' : ∀ r ∈ rest, ∀ c ∈ List.range' sc (ec + 1 - sc),
          cell_address c r ∉ dictKeys (m ++ (List.range' sc (ec + 1 - sc)).map
            (fun c => (cell_address c r0, (idx, c - sc)))) := by
        intro r hr c hc hmem
        simp only [dictKeys, List.map_append, List.mem_append, List.map_map] at hmem
        rcases hmem with hmem | hmem
        · exact hfresh r (by simp [hr]) c hc hmem
        · rcases List.mem_map.1 hmem with ⟨c', _, heq⟩
          have : r0 = r := (cell_address_inj (by simpa using heq)).2
          exact hndr.1 (this ▸ hr)
      rw [scanRows_cons]
      simp only [hsc0, Bool.false_or, List.nil_append]
      have hany : ((List.range' sc (ec + 1 - sc)).any fun c => (ws.cell r0 c).isSome)
          = rowHasData ws sc ec r0 := by
        simp [rowHasData, scannedCols]
      rw [hany]
      cases hkeep : rowHasData ws sc ec r0 || ie with
      | true =>
          simp only [if_true]
          rw [ih (idx + 1) (data ++ [(List.range' sc (ec + 1 - sc)).map fun c => ws.cell r0 c])
            (m ++ (List.range' sc (ec + 1 - sc)).map fun c => (cell_address c r0, (idx, c - sc)))
            hndr.2 hfresh']
          rw [List.filter_cons, mapPairs]
          simp [hkeep, rowVals, scannedCols, List.append_assoc]
      | false =>
          simp only [Bool.false_eq_true, if_false]
          rw [ih idx data
            (m ++ (List.range' sc (ec + 1 - sc)).map fun c => (cell_address c r0, (idx, c - sc)))
            hndr.2 hfresh']
          rw [List.filter_cons, mapPairs]
          simp [hkeep, rowVals, scannedCols, List.append_assoc]

theorem length_mapPairs (ws : Sheet) (sc ec : Nat) (ie : Bool) :
    ∀ (rows : List Nat) (idx : Nat),
      (mapPairs ws sc ec ie rows idx).length = rows.length * (scannedCols sc ec).length := by
  intro rows
  induction rows with
  | nil => intro idx; simp [mapPairs]
  | cons r rest ih =>
      intro idx
      rw [mapPairs]
      simp only [List.length_append, List.length_map, List.length_cons, ih]
      ring

theorem lookup_row_pairs_mem (r idx sc : Nat) :
    ∀ (cols : List Nat) (c : Nat), c ∈ cols →
      List.lookup (cell_address c r)
        (cols.map (fun x => (cell_address x r, (idx, x - sc)))) = some (idx, c - sc) := by
  intro cols
  induction cols with
  | nil => intro c hc; simp at hc
  | cons c0 rest ih =>
      intro c hc
      rw [List.map_cons, List.lookup_cons]
      by_cases heq : c = c0
      · subst heq
        simp
      · have hne : (cell_address c r == cell_address c0 r) = false := by
          refine beq_eq_false_iff_ne.2 (fun habs => heq ?_)
          exact (cell_address_inj habs).1
        rw [hne]
        refine ih c ?_
        rcases List.mem_cons.1 hc with h | h
        · exact absurd h heq
        · exact h

theorem lookup_row_pairs_ne (r r0 idx sc : Nat) (hne : r ≠ r0) :
    ∀ (cols : List Nat) (c : Nat),
      List.lookup (cell_address c r)
        (cols.map (fun x => (cell_address x r0, (idx, x - sc)))) = none := by
  intro cols
  induction cols with
  | nil => intro c; simp
  | cons c0 rest ih =>
      intro c
      rw [List.map_cons, List.lookup_cons]
      have hb : (cell_address c r == cell_address c0 r0) = false := by
        refine beq_eq_false_iff_ne.2 (fun habs => hne ?_)
        exact (cell_address_inj habs).2
      rw [hb]
      exact ih c

theorem lookup_mapPairs (ws : Sheet) (sc ec : Nat) (ie : Bool) :
    ∀ (len a idx r c : Nat), r ∈ List.range' a len → c ∈ scannedCols sc ec →
      List.lookup (cell_address c r) (mapPairs ws sc ec ie (List.range' a len) idx) =
        some (idx + ((List.range' a (r - a)).filter
          (fun x => rowHasData ws sc ec x || ie)).length, c - sc) := by
  intro len
  induction len with
  | zero =>
      intro a idx r c hr _
      simp [List.range'] at hr
  | succ len ih =>
      intro a idx r c hr hc
      rw [List.range'_succ, mapPairs, List.lookup_append]
      by_cases hra : r = a
      · subst hra
        rw [lookup_row_pairs_mem r idx sc (scannedCols sc ec) c hc]
        simp
      · have hr' : r ∈ List.range' (a + 1) len := by
          have : r ∈ a :: List.range' (a + 1) len := by
            rw [← List.range'_succ]
            simpa using hr
          rcases List.mem_cons.1 this with h | h
          · exact absurd h hra
          · exact h
        rw [lookup_row_pairs_ne r a idx sc hra (scannedCols sc ec) c]
        rw [Option.none_or]
        rw [ih (a + 1) (if rowHasData ws sc ec a || ie then idx + 1 else idx) r c hr' hc]
        have hge : a + 1 ≤ r := (List.mem_range'_1.1 hr').1
        have hsub : r - a = (r - (a + 1)) + 1 := by omega
        rw [hsub, List.range'_succ, List.filter_cons]
        cases hka : rowHasData ws sc ec a || ie with
        | true => simp [hka]; omega
        | false => simp [hka]

theorem getElem?_filter_kept (ws : Sheet) (sc ec : Nat) (ie : Bool) :
    ∀ (len a r : Nat), r ∈ List.range' a len → (rowHasData ws sc ec r || ie) = true →
      ((List.range' a len).filter (fun x => rowHasData ws sc ec x || ie))[
        ((List.range' a (r - a)).filter (fun x => rowHasData ws sc ec x || ie)).length]? =
        some r := by
  intro len
  induction len with
  | zero =>
      intro a r hr _
      simp [List.range'] at hr
  | succ len ih =>
      intro a r hr hk
      rw [List.range'_succ, List.filter_cons]
      by_cases hra : r = a
      · subst hra
        simp only [Nat.sub_self, List.range'_zero, List.filter_nil, List.length_nil, hk,
          if_true]
        simp
      · have hr' : r ∈ List.range' (a + 1) len := by
          have : r ∈ a :: List.range' (a + 1) len := by
            rw [← List.range'_succ]
            simpa using hr
          rcases List.mem_cons.1 this with h | h
          · exact absurd h hra
          · exact h
        have hge : a + 1 ≤ r := (List.mem_range'_1.1 hr').1
        have hsub : r - a = (r - (a + 1)) + 1 := by omega
        rw [hsub, List.range'_succ, List.filter_cons]
        cases hka : rowHasData ws sc ec a || ie with
        | true =>
            simp only [if_true]
            rw [List.length_cons, List.getElem?_cons_succ]
            exact ih (a + 1) r hr' hk
        | false =>
            simp only [Bool.false_eq_true, if_false]
            exact ih (a + 1) r hr' hk

theorem extract_ok_elim
    (load : String → Except LoadFailure Workbook) (fp sn : String)
    (sc ec sr : Nat) (er : Option Nat) (ie : Bool)
    (out : List (List (Option Value)) × List (String × Nat × Nat))
    (h : extract_cells_by_column_range load fp sn sc ec sr er ie = .ok out) :
    ∃ wb, load fp = .ok wb ∧ wb.sheetnames.contains sn = true ∧ 1 ≤ sc ∧ sc ≤ ec ∧
      out = scanRows (wb.sheet sn) sc ec ie
        (List.range' sr ((er.getD (wb.sheet sn).max_row) + 1 - sr)) 0 [] [] := by
  cases hl : load fp with
  | error e =>
      cases e <;> simp [extract_cells_by_column_range, hl] at h
  | ok wb =>
      refine ⟨wb, rfl, ?_⟩
      by_cases hs : sn ∈ wb.sheetnames
      · by_cases hcol : sc = 0 ∨ ec < sc
        · simp [extract_cells_by_column_range, hl, hs, hcol] at h
        · simp only [extract_cells_by_column_range, hl] at h
          simp [hs, hcol] at h
          have hcol' := not_or.1 hcol
          refine ⟨by simpa using hs, by omega, by omega, h.symm⟩
      · simp [extract_cells_by_column_range, hl, hs] at h

theorem extract_ok_of
    (load : String → Except LoadFailure Workbook) (fp sn : String)
    (wb : Workbook) (sc ec sr : Nat) (er : Option Nat) (ie : Bool)
    (hl : load fp = .ok wb) (hs : wb.sheetnames.contains sn = true)
    (h1 : 1 ≤ sc) (h2 : sc ≤ ec) :
    extract_cells_by_column_range load fp sn sc ec sr er ie =
      .ok (scanRows (wb.sheet sn) sc ec ie
        (List.range' sr ((er.getD (wb.sheet sn).max_row) + 1 - sr)) 0 [] []) := by
  have hcol : ¬ (sc = 0 ∨ ec < sc) := by omega
  have hs' : sn ∈ wb.sheetnames := by simpa using hs
  simp [extract_cells_by_column_range, hl, hs', hcol]

theorem extract_ok_char
    (load : String → Except LoadFailure Workbook) (fp sn : String)
    (wb : Workbook) (sc ec sr : Nat) (er : Option Nat) (ie : Bool)
    (tbl : List (List (Option Value))) (m : List (String × Nat × Nat))
    (hl : load fp = .ok wb)
    (h : extract_cells_by_column_range load fp sn sc ec sr er ie = .ok (tbl, m)) :
    tbl = (keptRows (wb.sheet sn) sc ec sr (er.getD (wb.sheet sn).max_row) ie).map
        (rowVals (wb.sheet sn) sc ec) ∧
      m = mapPairs (wb.sheet sn) sc ec ie
        (scannedRows sr (er.getD (wb.sheet sn).max_row)) 0 ∧
      1 ≤ sc ∧ sc ≤ ec ∧ wb.sheetnames.contains sn = true := by
  obtain ⟨wb', hl', hs, h1, h2, hout⟩ :=
    extract_ok_elim load fp sn sc ec sr er ie (tbl, m) h
  have hwb : wb' = wb := by
    rw [hl] at hl'
    exact (Except.ok.injEq _ _ ▸ hl').symm
  rw [hwb] at hs hout
  rw [scanRows_eq (wb.sheet sn) sc ec ie
    (List.range' sr ((er.getD (wb.sheet sn).max_row) + 1 - sr)) 0 [] []
    (List.nodup_range' sr _ 1 (by omega))
    (by intro r _ c _ hmem; simp [dictKeys] at hmem)] at hout
  simp only [List.nil_append, Prod.mk.injEq] at hout
  exact ⟨hout.1, hout.2, h1, h2, hs⟩

theorem any_isSome_eq_not_all_isNone (ws : Sheet) (r : Nat) (cols : List Nat) :
    (cols.any fun c => (ws.cell r c).isSome) = !(cols.all fun c => (ws.cell r c).isNone) := by
  induction cols with
  | nil => simp
  | cons c0 rest ih =>
      rw [List.any_cons, List.all_cons, ih]
      cases ws.cell r c0 <;> simp

/-- C2: for every successful call with explicit `end_row`, the returned cell
mapping has exactly `(end_row - start_row + 1) * (end_column - start_column + 1)`
entries — one per scanned cell — whatever `include_empty` is and however many
rows the empty-row filter drops.  (The hypothesis `start_row ≤ end_row` says the
scanned window is the nonempty range the formula describes; for an empty window
the call returns empty results, see the claim about inverted row bounds.) -/
theorem extract_address_map_size
    (load : String → Except LoadFailure Workbook) (fp sn : String)
    (sc ec sr er_val : Nat) (ie : Bool)
    (tbl : List (List (Option Value))) (m : List (String × Nat × Nat))
    (hsr : sr ≤ er_val)
    (h : extract_cells_by_column_range load fp sn sc ec sr (some er_val) ie = .ok (tbl, m)) :
    m.length = (er_val - sr + 1) * (ec - sc + 1) := by
  obtain ⟨wb, hl, _, _, _, _⟩ :=
    extract_ok_elim load fp sn sc ec sr (some er_val) ie (tbl, m) h
  obtain ⟨_, hm, h1, h2, _⟩ :=
    extract_ok_char load fp sn wb sc ec sr (some er_val) ie tbl m hl h
  rw [hm, length_mapPairs]
  simp only [Option.getD_some, scannedRows, scannedCols, List.length_range']
  rw [show er_val + 1 - sr = er_val - sr + 1 from by omega,
    show ec + 1 - sc = ec - sc + 1 from by omega]

/-- Concrete instance of the mapping-size theorem on the `wbA` fixture:
3 scanned rows × 2 scanned columns give 6 mapping entries, although the
extracted table has only 2 rows. -/
theorem extract_address_map_size_witness :
    ([("A1", (0, 0)), ("B1", (0, 1)), ("A2", (1, 0)), ("B2", (1, 1)), ("A3", (2, 0)),
      ("B3", (2, 1))] : List (String × Nat × Nat)).length = 6 :=
  extract_address_map_size loadA "data.xlsx" "Sheet1" 1 2 1 3 false
    [[some (.text "H1"), some (.text "H2")], [some (.num 1), some (.num 2)]]
    [("A1", (0, 0)), ("B1", (0, 1)), ("A2", (1, 0)), ("B2", (1, 1)), ("A3", (2, 0)),
      ("B3", (2, 1))]
    (by omega) rfl

/-- C3: for every successful call with explicit `end_row` (and a nonempty row
window), `include_empty = true` yields exactly `end_row - start_row + 1` table
rows, and in general the table never has more rows than that. -/
theorem extract_row_count
    (load : String → Except LoadFailure Workbook) (fp sn : String)
    (sc ec sr er_val : Nat) (ie : Bool)
    (tbl : List (List (Option Value))) (m : List (String × Nat × Nat))
    (hsr : sr ≤ er_val)
    (h : extract_cells_by_column_range load fp sn sc ec sr (some er_val) ie = .ok (tbl, m)) :
    (ie = true → tbl.length = er_val - sr + 1) ∧ tbl.length ≤ er_val - sr + 1 := by
  obtain ⟨wb, hl, _, _, _, _⟩ :=
    extract_ok_elim load fp sn sc ec sr (some er_val) ie (tbl, m) h
  obtain ⟨htbl, _, _, _, _⟩ :=
    extract_ok_char load fp sn wb sc ec sr (some er_val) ie tbl m hl h
  constructor
  · intro hie
    subst hie
    rw [htbl]
    simp only [keptRows, scannedRows, Option.getD_some, Bool.or_true, List.filter_true,
      List.length_map, List.length_range']
    omega
  · rw [htbl]
    simp only [keptRows, scannedRows, Option.getD_some, List.length_map]
    have := List.length_filter_le
      (fun r => rowHasData (wb.sheet sn) sc ec r || ie) (List.range' sr (er_val + 1 - sr))
    rw [List.length_range'] at this
    omega

/-- Concrete instance of the row-count theorem on the `wbA` fixture with
`include_empty = true`: all 3 scanned rows are kept. -/
theorem extract_row_count_witness :
    ([[some (.text "H1"), some (.text "H2")], [some (.num 1), some (.num 2)],
      [none, none]] : List (List (Option Value))).length = 3 :=
  (extract_row_count loadA "data.xlsx" "Sheet1" 1 2 1 3 true
    [[some (.text "H1"), some (.text "H2")], [some (.num 1), some (.num 2)], [none, none]]
    [("A1", (0, 0)), ("B1", (0, 1)), ("A2", (1, 0)), ("B2", (1, 1)), ("A3", (2, 0)),
      ("B3", (2, 1))]
    (by omega) rfl).1 rfl

/-- C4: for every successful call, the extracted table is exactly the kept
rows in scan order, each row being the scanned cell values of columns
`start_column … end_column` in ascending column order (`rowVals` maps over the
ascending column range), so every row has exactly
`end_column - start_column + 1` entries. -/
theorem extract_row_width
    (load : String → Except LoadFailure Workbook) (fp sn : String) (wb : Workbook)
    (sc ec sr : Nat) (er : Option Nat) (ie : Bool)
    (tbl : List (List (Option Value))) (m : List (String × Nat × Nat))
    (hl : load fp = .ok wb)
    (h : extract_cells_by_column_range load fp sn sc ec sr er ie = .ok (tbl, m)) :
    tbl = (keptRows (wb.sheet sn) sc ec sr (er.getD (wb.sheet sn).max_row) ie).map
        (rowVals (wb.sheet sn) sc ec) ∧
      ∀ row ∈ tbl, row.length = ec - sc + 1 := by
  obtain ⟨htbl, _, h1, h2, _⟩ :=
    extract_ok_char load fp sn wb sc ec sr er ie tbl m hl h
  refine ⟨htbl, ?_⟩
  intro row hrow
  rw [htbl] at hrow
  rcases List.mem_map.1 hrow with ⟨r, _, hrv⟩
  rw [← hrv, rowVals, List.length_map, scannedCols, List.length_range']
  omega

/-- Concrete instance of the row-shape theorem on the `wbA` fixture: both kept
rows list the values of columns 1 and 2 in order, 2 entries each. -/
theorem extract_row_width_witness :
    ([[some (.text "H1"), some (.text "H2")], [some (.num 1), some (.num 2)]]
        : List (List (Option Value))) =
      (keptRows (wbA.sheet "Sheet1") 1 2 1 ((some 3).getD (wbA.sheet "Sheet1").max_row)
        false).map (rowVals (wbA.sheet "Sheet1") 1 2) :=
  (extract_row_width loadA "data.xlsx" "Sheet1" wbA 1 2 1 (some 3) false
    [[some (.text "H1"), some (.text "H2")], [some (.num 1), some (.num 2)]]
    [("A1", (0, 0)), ("B1", (0, 1)), ("A2", (1, 0)), ("B2", (1, 1)), ("A3", (2, 0)),
      ("B3", (2, 1))]
    rfl rfl).1

/-- C9: when `end_row` is given but smaller than `start_row`, a call that passes
file, sheet and column validation raises nothing: the scanned window
`range(start_row, end_row + 1)` is empty and the result is an empty table with
an empty mapping — the two row bounds are never compared. -/
theorem extract_empty_window
    (load : String → Except LoadFailure Workbook) (fp sn : String) (wb : Workbook)
    (sc ec sr er_val : Nat) (ie : Bool)
    (hl : load fp = .ok wb) (hs : wb.sheetnames.contains sn = true)
    (h1 : 1 ≤ sc) (h2 : sc ≤ ec) (hlt : er_val < sr) :
    extract_cells_by_column_range load fp sn sc ec sr (some er_val) ie = .ok ([], []) := by
  rw [extract_ok_of load fp sn wb sc ec sr (some er_val) ie hl hs h1 h2]
  simp only [Option.getD_some]
  rw [show er_val + 1 - sr = 0 from by omega, List.range'_zero]
  rfl

/-- Concrete instance of the inverted-window theorem: `start_row = 5`,
`end_row = 3` on the `wbA` fixture succeeds with empty results. -/
theorem extract_empty_window_witness :
    extract_cells_by_column_range loadA "data.xlsx" "Sheet1" 1 2 5 (some 3) false =
      .ok ([], []) :=
  extract_empty_window loadA "data.xlsx" "Sheet1" wbA 1 2 5 3 false rfl rfl
    (by omega) (by omega) (by omega)

/-- C10: for every successful call, a scanned row is dropped exactly when every
cell of the requested column range is the absent marker `none` (and
`include_empty` is false): the table is the scanned rows filtered by
"not all cells absent, or `include_empty`", mapped to their values.  Any
`some` value — including the empty text string, the number 0 or the boolean
false — makes the row count as data. -/
theorem extract_empty_row_criterion
    (load : String → Except LoadFailure Workbook) (fp sn : String) (wb : Workbook)
    (sc ec sr : Nat) (er : Option Nat) (ie : Bool)
    (tbl : List (List (Option Value))) (m : List (String × Nat × Nat))
    (hl : load fp = .ok wb)
    (h : extract_cells_by_column_range load fp sn sc ec sr er ie = .ok (tbl, m)) :
    tbl = ((scannedRows sr (er.getD (wb.sheet sn).max_row)).filter
        (fun r => !((scannedCols sc ec).all fun c => ((wb.sheet sn).cell r c).isNone) || ie)).map
      (rowVals (wb.sheet sn) sc ec) := by
  obtain ⟨htbl, _, _, _, _⟩ :=
    extract_ok_char load fp sn wb sc ec sr er ie tbl m hl h
  rw [htbl, keptRows]
  congr 1
  refine List.filter_congr ?_
  intro r _
  rw [rowHasData, any_isSome_eq_not_all_isNone]

/-- Concrete instance of the empty-row criterion on the `wbB` fixture: the row
whose single cell holds the empty text string is kept even with
`include_empty = false`, while the all-`none` row is dropped. -/
theorem extract_empty_row_criterion_witness :
    ([[some (.text "")]] : List (List (Option Value))) =
      ((scannedRows 1 ((some 2).getD (wbB.sheet "Data").max_row)).filter
          (fun r => !((scannedCols 1 1).all fun c => ((wbB.sheet "Data").cell r c).isNone)
            || false)).map (rowVals (wbB.sheet "Data") 1 1) :=
  extract_empty_row_criterion loadB "data.xlsx" "Data" wbB 1 1 1 (some 2) false
    [[some (.text "")]] [("A1", (0, 0)), ("A2", (1, 0))] rfl rfl

/-- C1: for every successful call, every scanned cell address is in the
returned mapping, bound to the pair (value of the kept-row counter when its row
was scanned — `keptBefore`, the number of earlier kept rows — , column offset
`c - start_column`).  When the row was kept, that counter is the row's actual
0-based index in the extracted table: the table holds the row's values at that
index, and the cell's value sits at the column offset within it.  When the row
was dropped, the very same entry remains, its row index being the counter value
the next kept row (if any) will occupy. -/
theorem extract_address_map_invariant
    (load : String → Except LoadFailure Workbook) (fp sn : String) (wb : Workbook)
    (sc ec sr : Nat) (er : Option Nat) (ie : Bool)
    (tbl : List (List (Option Value))) (m : List (String × Nat × Nat))
    (hl : load fp = .ok wb)
    (h : extract_cells_by_column_range load fp sn sc ec sr er ie = .ok (tbl, m))
    (r c : Nat)
    (hr : r ∈ scannedRows sr (er.getD (wb.sheet sn).max_row))
    (hc : c ∈ scannedCols sc ec) :
    List.lookup (cell_address c r) m =
      some (keptBefore (wb.sheet sn) sc ec sr ie r, c - sc) ∧
    ((rowHasData (wb.sheet sn) sc ec r || ie) = true →
      tbl[keptBefore (wb.sheet sn) sc ec sr ie r]? =
        some (rowVals (wb.sheet sn) sc ec r) ∧
      (rowVals (wb.sheet sn) sc ec r)[c - sc]? = some ((wb.sheet sn).cell r c)) := by
  obtain ⟨htbl, hm, h1, h2, _⟩ :=
    extract_ok_char load fp sn wb sc ec sr er ie tbl m hl h
  have hrr : r ∈ List.range' sr ((er.getD (wb.sheet sn).max_row) + 1 - sr) := by
    simpa [scannedRows] using hr
  refine ⟨?_, ?_⟩
  · rw [hm]
    have hlk := lookup_mapPairs (wb.sheet sn) sc ec ie
      ((er.getD (wb.sheet sn).max_row) + 1 - sr) sr 0 r c hrr hc
    simpa [scannedRows, keptBefore] using hlk
  · intro hkeep
    constructor
    · rw [htbl]
      simp only [keptRows, scannedRows, keptBefore, List.getElem?_map]
      rw [getElem?_filter_kept (wb.sheet sn) sc ec ie
        ((er.getD (wb.sheet sn).max_row) + 1 - sr) sr r hrr hkeep]
      simp
    · have hmem := List.mem_range'_1.1 (show c ∈ List.range' sc (ec + 1 - sc) from by
        simpa [scannedCols] using hc)
      have hidx : c - sc < ec + 1 - sc := by omega
      rw [rowVals, List.getElem?_map, scannedCols, List.getElem?_range' sc 1 hidx]
      rw [show sc + 1 * (c - sc) = c from by omega]
      rfl

/-- Concrete instance of the address-map invariant on the `wbA` fixture: the
stale entry for the dropped empty row 3 — address "B3" is still present,
mapped to the counter value 2, the slot no kept row occupies. -/
theorem extract_address_map_invariant_witness :
    List.lookup (cell_address 2 3)
        ([("A1", (0, 0)), ("B1", (0, 1)), ("A2", (1, 0)), ("B2", (1, 1)), ("A3", (2, 0)),
          ("B3", (2, 1))] : List (String × Nat × Nat)) =
      some (2, 1) :=
  (extract_address_map_invariant loadA "data.xlsx" "Sheet1" wbA 1 2 1 (some 3) false
    [[some (.text "H1"), some (.text "H2")], [some (.num 1), some (.num 2)]]
    [("A1", (0, 0)), ("B1", (0, 1)), ("A2", (1, 0)), ("B2", (1, 1)), ("A3", (2, 0)),
      ("B3", (2, 1))]
    rfl rfl 3 2 (by decide) (by decide)).1

/-- C5: whenever both column letter strings convert successfully, the
letter-based entry point returns exactly what the number-based entry point
returns on the converted 1-indexed column numbers, all remaining arguments
passed through unchanged. -/
theorem letters_delegate_to_numbers
    (load : String → Except LoadFailure Workbook) (fp sn : String)
    (l1 l2 : String) (sr : Nat) (er : Option Nat) (ie : Bool) (a b : Nat)
    (h1 : column_index_from_string l1 = .ok a)
    (h2 : column_index_from_string l2 = .ok b) :
    extract_cells_by_column_letters load fp sn l1 l2 sr er ie =
      extract_cells_by_column_range load fp sn a b sr er ie := by
  simp [extract_cells_by_column_letters, h1, h2]

/-- Concrete instance of the delegation theorem: letters "A","C" behave as
columns 1,3 on the `wbA` fixture. -/
theorem letters_delegate_to_numbers_witness :
    extract_cells_by_column_letters loadA "data.xlsx" "Sheet1" "A" "C" 1 (some 2) false =
      extract_cells_by_column_range loadA "data.xlsx" "Sheet1" 1 3 1 (some 2) false :=
  letters_delegate_to_numbers loadA "data.xlsx" "Sheet1" "A" "C" 1 (some 2) false 1 3 rfl rfl

/-- C6 (amended): when opening the workbook fails with `FileNotFoundError`,
the call fails with `FileNotFound` naming the offending path; but when the
path names a file that exists and merely cannot be opened as a workbook, the
underlying exception propagates unchanged — it is not converted to
`FileNotFound` (the source catches only `FileNotFoundError`). -/
theorem extract_file_not_found
    (load : String → Except LoadFailure Workbook) (fp sn : String)
    (sc ec sr : Nat) (er : Option Nat) (ie : Bool) :
    (∀ msg, load fp = .error (.fileNotFound msg) →
      extract_cells_by_column_range load fp sn sc ec sr er ie =
        .error (.fileNotFound ("Excel file not found: " ++ fp))) ∧
    (∀ msg, load fp = .error (.other msg) →
      extract_cells_by_column_range load fp sn sc ec sr er ie = .error (.uncaught msg)) := by
  constructor <;> intro msg hl <;> simp [extract_cells_by_column_range, hl]

/-- Counterexample to C6 as stated: on a loader whose file exists but is not a
valid workbook (`load_workbook` raises an exception other than
`FileNotFoundError`), the call does not fail with `FileNotFound` — the foreign
exception propagates instead. -/
theorem extract_file_not_found_cex :
    extract_cells_by_column_range corruptLoad "exists.xlsx" "Sheet1" 1 1 1 (some 1) false =
        .error (.uncaught "File is not a zip file") ∧
      isFileNotFoundResult (extract_cells_by_column_range corruptLoad "exists.xlsx" "Sheet1"
        1 1 1 (some 1) false) = false :=
  ⟨rfl, rfl⟩

/-- Concrete instance of the amended file-not-found theorem on a loader whose
path names no file. -/
theorem extract_file_not_found_witness :
    extract_cells_by_column_range missingLoad "missing.xlsx" "Sheet1" 1 1 1 (some 1) false =
      .error (.fileNotFound "Excel file not found: missing.xlsx") :=
  (extract_file_not_found missingLoad "missing.xlsx" "Sheet1" 1 1 1 (some 1) false).1
    "No such file or directory" rfl

/-- C7: on an openable workbook, a sheet name that is not among the workbook's
sheet names fails with a `ValueError` whose message names the missing sheet and
enumerates the available sheet names (`pyReprStrList` renders the list exactly
as the Python interpolation does). -/
theorem extract_missing_sheet
    (load : String → Except LoadFailure Workbook) (fp sn : String) (wb : Workbook)
    (sc ec sr : Nat) (er : Option Nat) (ie : Bool)
    (hl : load fp = .ok wb)
    (hs : wb.sheetnames.contains sn = false) :
    extract_cells_by_column_range load fp sn sc ec sr er ie =
      .error (.valueError ("Sheet \x27" ++ sn ++ "\x27 not found. Available sheets: "
        ++ pyReprStrList wb.sheetnames)) := by
  have hs' : sn ∉ wb.sheetnames := by simpa using hs
  simp [extract_cells_by_column_range, hl, hs']

/-- Concrete instance of the missing-sheet theorem on the `wbA` fixture: asking
for "Missing" lists the only available sheet, "Sheet1". -/
theorem extract_missing_sheet_witness :
    extract_cells_by_column_range loadA "data.xlsx" "Missing" 1 2 1 (some 3) false =
      .error (.valueError
        "Sheet \x27Missing\x27 not found. Available sheets: [\x27Sheet1\x27]") :=
  extract_missing_sheet loadA "data.xlsx" "Missing" wbA 1 2 1 (some 3) false rfl rfl

/-- C8: a failing letter conversion (either argument) is re-raised as a
`ValueError` wrapping the conversion failure message with the
"Invalid column letters: " context; when both conversions succeed the call is
exactly the delegated number-based call, so every error the delegate raises
propagates through unchanged. -/
theorem letters_invalid_wrapped
    (load : String → Except LoadFailure Workbook) (fp sn : String)
    (l1 l2 : String) (sr : Nat) (er : Option Nat) (ie : Bool) :
    (∀ e, column_index_from_string l1 = .error e →
      extract_cells_by_column_letters load fp sn l1 l2 sr er ie =
        .error (.valueError ("Invalid column letters: " ++ e))) ∧
    (∀ a e, column_index_from_string l1 = .ok a → column_index_from_string l2 = .error e →
      extract_cells_by_column_letters load fp sn l1 l2 sr er ie =
        .error (.valueError ("Invalid column letters: " ++ e))) ∧
    (∀ a b, column_index_from_string l1 = .ok a → column_index_from_string l2 = .ok b →
      extract_cells_by_column_letters load fp sn l1 l2 sr er ie =
        extract_cells_by_column_range load fp sn a b sr er ie) := by
  refine ⟨?_, ?_, ?_⟩
  · intro e he
    simp [extract_cells_by_column_letters, he]
  · intro a e ha he
    simp [extract_cells_by_column_letters, ha, he]
  · intro a b ha hb
    simp [extract_cells_by_column_letters, ha, hb]

/-- Concrete instance of the wrapped-conversion-failure theorem: the string
"A1" is not a valid column designator, and the library's message is wrapped
with the "Invalid column letters: " context. -/
theorem letters_invalid_wrapped_witness :
    extract_cells_by_column_letters loadA "data.xlsx" "Sheet1" "A1" "C" 1 (some 3) false =
      .error (.valueError "Invalid column letters: A1 is not a valid column name") :=
  (letters_invalid_wrapped loadA "data.xlsx" "Sheet1" "A1" "C" 1 (some 3) false).1
    "A1 is not a valid column name" rfl
